import Mathlib

/-!
A shallow embedding of the reorg detector from
`core/lib/zksync_core/src/reorg_detector/mod.rs`.

Heights (`L1BatchNumber`, `MiniblockNumber`, both `u32` newtypes) are modelled
as `Nat`; hashes (`H256`) as `Nat` with bit-exact equality. The async, stateful
methods of `ReorgDetector` become pure functions over an explicit state
(`DetectorState` bundling the block store view and the main-node client view),
returning their result together with an ordered trace of observable actions
(store queries, RPC queries, emitted events, sleeps).
-/

namespace Reorg

/-- Classification of an RPC client error (`jsonrpsee::core::ClientError`).
Only the variants distinguished by `Error::is_transient` are kept separate;
`Call`, `ParseErr` and `Custom` stand for the remaining non-transient variants. -/
inductive RpcError where
  | Transport
  | RequestTimeout
  | Call
  | ParseErr
  | Custom
deriving DecidableEq, Repr

/-- The detector's error type (`enum Error` in `reorg_detector/mod.rs`).
`Storage` absorbs both SQL errors and local-invariant violations
(`anyhow` contexts); its payload is irrelevant to the claims and omitted. -/
inductive Error where
  | Rpc (e : RpcError)
  | EarliestHashMismatch (n : Nat)
  | EarliestL1BatchTruncated (n : Nat)
  | ReorgDetected (n : Nat)
  | Storage
  | NoRemoteL1Batch
deriving DecidableEq, Repr

/-- `Error::is_transient` (mod.rs lines 50-59). -/
def Error.is_transient : Error → Bool
  | .NoRemoteL1Batch => true
  | .Rpc e =>
    match e with
    | .Transport | .RequestTimeout => true
    | _ => false
  | _ => false

/-- Events of the `HandleReorgDetectorEvent` trait. The `initialize` signal is
named `initialized` here. -/
inductive Event where
  | initialized
  | update_correct_block (last_correct_miniblock last_correct_l1_batch : Nat)
  | report_divergence (diverged_l1_batch : Nat)
  | start_shutting_down
deriving DecidableEq, Repr

/-- Observable actions of the detector, in program order: block-store queries,
RPC queries to the main node, emitted events, and sleeps. `sleep_full` records
a `tokio::time::sleep(self.sleep_interval)` call: a fixed-duration sleep that
is not selected against the stop receiver and therefore always waits out the
whole interval. -/
inductive Action where
  | query_last_l1_batch
  | query_sealed_miniblock
  | query_earliest_l1_batch
  | query_miniblock_header (n : Nat)
  | query_l1_batch_state_root (n : Nat)
  | rpc_sealed_l1_batch
  | rpc_sealed_miniblock
  | rpc_miniblock_hash (n : Nat)
  | rpc_l1_batch_root_hash (n : Nat)
  | emit (e : Event)
  | sleep_full
deriving DecidableEq, Repr

/-- The detector's view of the local block store (`BlocksDal` read queries).
The database itself is assumed not to fail; absent values are what the code
turns into `Error::Storage` via `anyhow` contexts. -/
structure Storage where
  last_l1_batch_number_with_metadata : Option Nat
  sealed_miniblock_number : Option Nat
  earliest_l1_batch_number_with_metadata : Option Nat
  miniblock_header_hash : Nat → Option Nat
  l1_batch_state_root : Nat → Option Nat

/-- The `MainNodeClient` trait: four remote queries, each possibly failing
with an RPC error. -/
structure MainNodeClient where
  sealed_miniblock_number : Except RpcError Nat
  sealed_l1_batch_number : Except RpcError Nat
  miniblock_hash : Nat → Except RpcError (Option Nat)
  l1_batch_root_hash : Nat → Except RpcError (Option Nat)

/-- The state a `ReorgDetector` operates over within one round: the block
store and the main-node client, both held fixed (the code reads each value
once per round). -/
structure DetectorState where
  storage : Storage
  client : MainNodeClient

/-- `ReorgDetector::root_hashes_match` (mod.rs lines 316-338): read the local
state root, then the remote one; an absent local root is a `Storage` error, an
absent remote root is `NoRemoteL1Batch`, otherwise compare. -/
def root_hashes_match (st : DetectorState) (l1_batch_number : Nat) :
    Except Error Bool × List Action :=
  match st.storage.l1_batch_state_root l1_batch_number with
  | none => (.error .Storage, [.query_l1_batch_state_root l1_batch_number])
  | some local_hash =>
    match st.client.l1_batch_root_hash l1_batch_number with
    | .error e =>
      (.error (.Rpc e),
        [.query_l1_batch_state_root l1_batch_number,
         .rpc_l1_batch_root_hash l1_batch_number])
    | .ok none =>
      (.error .NoRemoteL1Batch,
        [.query_l1_batch_state_root l1_batch_number,
         .rpc_l1_batch_root_hash l1_batch_number])
    | .ok (some remote_hash) =>
      (.ok (remote_hash == local_hash),
        [.query_l1_batch_state_root l1_batch_number,
         .rpc_l1_batch_root_hash l1_batch_number])

/-- `ReorgDetector::miniblock_hashes_match` (mod.rs lines 283-313): read the
local header hash, then the remote block hash; an absent local header is a
`Storage` error, an absent remote block is treated as a match, otherwise
compare. -/
def miniblock_hashes_match (st : DetectorState) (miniblock_number : Nat) :
    Except Error Bool × List Action :=
  match st.storage.miniblock_header_hash miniblock_number with
  | none => (.error .Storage, [.query_miniblock_header miniblock_number])
  | some local_hash =>
    match st.client.miniblock_hash miniblock_number with
    | .error e =>
      (.error (.Rpc e),
        [.query_miniblock_header miniblock_number,
         .rpc_miniblock_hash miniblock_number])
    | .ok none =>
      (.ok true,
        [.query_miniblock_header miniblock_number,
         .rpc_miniblock_hash miniblock_number])
    | .ok (some remote_hash) =>
      (.ok (remote_hash == local_hash),
        [.query_miniblock_header miniblock_number,
         .rpc_miniblock_hash miniblock_number])

/-- Modelled from the spec: `binary_search_with` lives in `crate::utils`,
which is not among the provided sources; only its caller `detect_reorg` is.
Per the spec (section 4.4 and the design notes), it is a generic binary search
over `[left, right]` whose predicate can fail, short-circuiting on the first
error, maintaining the invariant that the predicate holds at `left` and fails
at `right`, and returning the greatest agreeing height `left` once the
interval has shrunk to `left + 1 = right`. Traces of the probes are
concatenated in probe order. -/
def binary_search_with (f : Nat → Except Error Bool × List Action)
    (left right : Nat) : Except Error Nat × List Action :=
  if _h : left + 1 < right then
    let middle := (left + right) / 2
    match f middle with
    | (.error e, tr) => (.error e, tr)
    | (.ok true, tr) =>
      let rest := binary_search_with f middle right
      (rest.1, tr ++ rest.2)
    | (.ok false, tr) =>
      let rest := binary_search_with f left middle
      (rest.1, tr ++ rest.2)
  else
    (.ok left, [])
termination_by right - left
decreasing_by
  · have h1 : left + 1 ≤ (left + right) / 2 := by omega
    have h2 : (left + right) / 2 < right := by omega
    omega
  · have h1 : left + 1 ≤ (left + right) / 2 := by omega
    have h2 : (left + right) / 2 < right := by omega
    omega

/-- The probe predicate used by `detect_reorg`: `root_hashes_match`, with a
`NoRemoteL1Batch` error coerced to a match (mod.rs lines 351-356). -/
def reorg_probe (st : DetectorState) (number : Nat) :
    Except Error Bool × List Action :=
  match root_hashes_match st number with
  | (.error .NoRemoteL1Batch, tr) => (.ok true, tr)
  | res => res

/-- `ReorgDetector::detect_reorg` (mod.rs lines 341-360): binary search
between the known-valid and the diverged batch with the coerced probe. -/
def detect_reorg (st : DetectorState)
    (known_valid_l1_batch diverged_l1_batch : Nat) :
    Except Error Nat × List Action :=
  binary_search_with (reorg_probe st) known_valid_l1_batch diverged_l1_batch

/-- `ReorgDetector::check_consistency` (mod.rs lines 228-280): one round of
the consistency check, returning the result together with the ordered trace
of store queries, RPC queries and emitted events. -/
def check_consistency (st : DetectorState) : Except Error Unit × List Action :=
  match st.storage.last_l1_batch_number_with_metadata with
  | none => (.ok (), [.query_last_l1_batch])
  | some local_l1_batch =>
  match st.storage.sealed_miniblock_number with
  | none => (.ok (), [.query_last_l1_batch, .query_sealed_miniblock])
  | some local_miniblock =>
  match st.client.sealed_l1_batch_number with
  | .error e =>
    (.error (.Rpc e),
      [.query_last_l1_batch, .query_sealed_miniblock, .rpc_sealed_l1_batch])
  | .ok remote_l1_batch =>
  match st.client.sealed_miniblock_number with
  | .error e =>
    (.error (.Rpc e),
      [.query_last_l1_batch, .query_sealed_miniblock, .rpc_sealed_l1_batch,
       .rpc_sealed_miniblock])
  | .ok remote_miniblock =>
    let pre := [Action.query_last_l1_batch, .query_sealed_miniblock,
      .rpc_sealed_l1_batch, .rpc_sealed_miniblock]
    let checked_l1_batch := min local_l1_batch remote_l1_batch
    let checked_miniblock := min local_miniblock remote_miniblock
    match root_hashes_match st checked_l1_batch with
    | (.error e, tr1) => (.error e, pre ++ tr1)
    | (.ok root_match, tr1) =>
    match miniblock_hashes_match st checked_miniblock with
    | (.error e, tr2) => (.error e, pre ++ tr1 ++ tr2)
    | (.ok miniblock_match, tr2) =>
      if root_match && miniblock_match then
        (.ok (), pre ++ tr1 ++ tr2 ++
          [.emit (.update_correct_block checked_miniblock checked_l1_batch)])
      else
        let diverged_l1_batch := checked_l1_batch + (if root_match then 1 else 0)
        let pre2 := pre ++ tr1 ++ tr2 ++
          [Action.emit (.report_divergence diverged_l1_batch)]
        match st.storage.earliest_l1_batch_number_with_metadata with
        | none => (.error .Storage, pre2 ++ [.query_earliest_l1_batch])
        | some earliest_l1_batch =>
          match detect_reorg st earliest_l1_batch diverged_l1_batch with
          | (.error e, tr3) =>
            (.error e, pre2 ++ [.query_earliest_l1_batch] ++ tr3)
          | (.ok last_correct_l1_batch, tr3) =>
            (.error (.ReorgDetected last_correct_l1_batch),
              pre2 ++ [.query_earliest_l1_batch] ++ tr3)

/-- Modelled from the spec: `wait_for_l1_batch_with_metadata` lives in
`crate::utils`, which is not among the provided sources; only its caller
`run_inner` is. Per the spec (section 4.5), it waits — cancellably, checking
the stop signal — until the store has an L1 batch with metadata, returning
`none` on stop and the earliest such batch otherwise. Over the static store
modelled here the batch either exists now or never appears, and in the latter
case the real wait can only end via the stop signal, so it is modelled as
returning `none` exactly when the stop signal is set at the poll or no batch
exists. `stop_now` is the value of the stop signal observed by the wait. -/
def wait_for_l1_batch_with_metadata (st : DetectorState) (stop_now : Bool) :
    Option Nat :=
  if stop_now then none
  else st.storage.earliest_l1_batch_number_with_metadata

/-- The steady-state loop of `run_inner` (mod.rs lines 397-401):
`while !*stop_receiver.borrow() { check_consistency; sleep(full interval) }`.
The stop signal is a function of the poll index; `i` is the index of the next
poll and the returned `Nat` the index after the loop exits. `fuel` bounds the
number of modelled iterations (the store and client are static, so an
unstopped, error-free loop would iterate forever); theorems only concern runs
that finish within their fuel. -/
def run_inner_steady (st : DetectorState) (stop : Nat → Bool) (i : Nat)
    (fuel : Nat) : Except Error Unit × List Action × Nat :=
  match fuel with
  | 0 => (.ok (), [], i)
  | fuel + 1 =>
    if stop i then (.ok (), [], i + 1)
    else
      match check_consistency st with
      | (.error e, tr) => (.error e, tr, i + 1)
      | (.ok _, tr) =>
        let rest := run_inner_steady st stop (i + 1) fuel
        (rest.1, tr ++ [.sleep_full] ++ rest.2.1, rest.2.2)

/-- `ReorgDetector::run_inner` (mod.rs lines 380-402): wait for the earliest
L1 batch with metadata (returning `Ok` if the stop signal ends the wait),
check root hashes at that batch — a mismatch is `EarliestHashMismatch`, a
`NoRemoteL1Batch` error is `EarliestL1BatchTruncated`, any other error
propagates — then enter the steady-state loop. The wait consumes one poll of
the stop signal at index `i`. -/
def run_inner (st : DetectorState) (stop : Nat → Bool) (i : Nat)
    (fuel : Nat) : Except Error Unit × List Action × Nat :=
  match wait_for_l1_batch_with_metadata st (stop i) with
  | none => (.ok (), [], i + 1)
  | some earliest_l1_batch =>
    match root_hashes_match st earliest_l1_batch with
    | (.ok true, tr) =>
      let rest := run_inner_steady st stop (i + 1) fuel
      (rest.1, tr ++ rest.2.1, rest.2.2)
    | (.ok false, tr) =>
      (.error (.EarliestHashMismatch earliest_l1_batch), tr, i + 1)
    | (.error .NoRemoteL1Batch, tr) =>
      (.error (.EarliestL1BatchTruncated earliest_l1_batch), tr, i + 1)
    | (.error e, tr) => (.error e, tr, i + 1)

/-- The outer loop of `ReorgDetector::run` (mod.rs lines 364-374):
`while !*stop_receiver.borrow()` around `run_inner`; a transient error is
followed by a full-interval sleep and a retry, a non-transient error returns
immediately (without the shutdown event), and exiting the loop on the stop
signal emits `start_shutting_down` and returns `Ok`. `outer_fuel` bounds the
modelled loop iterations. -/
def run_loop (st : DetectorState) (stop : Nat → Bool) (i : Nat)
    (outer_fuel inner_fuel : Nat) : Except Error Unit × List Action :=
  match outer_fuel with
  | 0 => (.ok (), [])
  | o + 1 =>
    if stop i then (.ok (), [.emit .start_shutting_down])
    else
      match run_inner st stop (i + 1) inner_fuel with
      | (.ok _, tr, j) =>
        let rest := run_loop st stop j o inner_fuel
        (rest.1, tr ++ rest.2)
      | (.error e, tr, j) =>
        if e.is_transient then
          let rest := run_loop st stop j o inner_fuel
          (rest.1, tr ++ [.sleep_full] ++ rest.2)
        else (.error e, tr)

/-- `ReorgDetector::run` (mod.rs lines 362-378): emit the initialization
event, then run the outer loop with stop polls starting at index 0. -/
def run (st : DetectorState) (stop : Nat → Bool)
    (outer_fuel inner_fuel : Nat) : Except Error Unit × List Action :=
  let r := run_loop st stop 0 outer_fuel inner_fuel
  (r.1, .emit .initialized :: r.2)

/-- A healthy state: local and remote agree everywhere; batches `0..10` with
root hashes `100 + n`, miniblocks `0..30` with hashes `1000 + n`. -/
def stHealthy : DetectorState :=
  { storage :=
    { last_l1_batch_number_with_metadata := some 10
      sealed_miniblock_number := some 30
      earliest_l1_batch_number_with_metadata := some 1
      miniblock_header_hash := fun n => if n ≤ 30 then some (1000 + n) else none
      l1_batch_state_root := fun n => if n ≤ 10 then some (100 + n) else none }
    client :=
    { sealed_miniblock_number := .ok 30
      sealed_l1_batch_number := .ok 30
      miniblock_hash := fun n => .ok (if n ≤ 30 then some (1000 + n) else none)
      l1_batch_root_hash := fun n => .ok (if n ≤ 10 then some (100 + n) else none) } }

/-- A reorged state: batch root hashes agree up to batch 7 and diverge from
batch 8 on; miniblock hashes agree up to block 24 and diverge after. -/
def stReorg : DetectorState :=
  { storage :=
    { last_l1_batch_number_with_metadata := some 10
      sealed_miniblock_number := some 30
      earliest_l1_batch_number_with_metadata := some 1
      miniblock_header_hash := fun n => if n ≤ 30 then some (1000 + n) else none
      l1_batch_state_root := fun n => if n ≤ 10 then some (100 + n) else none }
    client :=
    { sealed_miniblock_number := .ok 30
      sealed_l1_batch_number := .ok 10
      miniblock_hash := fun n =>
        .ok (if n ≤ 24 then some (1000 + n) else some (2000 + n))
      l1_batch_root_hash := fun n =>
        .ok (if n ≤ 7 then some (100 + n) else some (200 + n)) } }

/-- A state where batch root hashes agree everywhere but the miniblock hash
diverges at the common height 30. -/
def stBlockOnly : DetectorState :=
  { storage :=
    { last_l1_batch_number_with_metadata := some 10
      sealed_miniblock_number := some 30
      earliest_l1_batch_number_with_metadata := some 1
      miniblock_header_hash := fun n => if n ≤ 30 then some (1000 + n) else none
      l1_batch_state_root := fun n => if n ≤ 10 then some (100 + n) else none }
    client :=
    { sealed_miniblock_number := .ok 30
      sealed_l1_batch_number := .ok 10
      miniblock_hash := fun n =>
        .ok (if n ≤ 29 then some (1000 + n) else some (2000 + n))
      l1_batch_root_hash := fun n =>
        .ok (if n ≤ 10 then some (100 + n) else none) } }

/-- A state whose remote side answers "absent" to every hash query: the batch
root at 3 and the miniblock hash at 4 exist locally but not remotely. -/
def stAbsent : DetectorState :=
  { storage :=
    { last_l1_batch_number_with_metadata := some 3
      sealed_miniblock_number := some 4
      earliest_l1_batch_number_with_metadata := some 3
      miniblock_header_hash := fun n => if n = 4 then some 8 else none
      l1_batch_state_root := fun n => if n = 3 then some 7 else none }
    client :=
    { sealed_miniblock_number := .ok 4
      sealed_l1_batch_number := .ok 3
      miniblock_hash := fun _ => .ok none
      l1_batch_root_hash := fun _ => .ok none } }

/-- A bootstrapping state: no local L1 batch with metadata yet. -/
def stEmpty : DetectorState :=
  { storage :=
    { last_l1_batch_number_with_metadata := none
      sealed_miniblock_number := none
      earliest_l1_batch_number_with_metadata := none
      miniblock_header_hash := fun _ => none
      l1_batch_state_root := fun _ => none }
    client :=
    { sealed_miniblock_number := .ok 0
      sealed_l1_batch_number := .ok 0
      miniblock_hash := fun _ => .ok none
      l1_batch_root_hash := fun _ => .ok none } }

/-- A state whose earliest local batch (5, root hash 1) has a different root
hash (2) on the main node. -/
def stEarliestMismatch : DetectorState :=
  { storage :=
    { last_l1_batch_number_with_metadata := some 5
      sealed_miniblock_number := some 1
      earliest_l1_batch_number_with_metadata := some 5
      miniblock_header_hash := fun _ => some 1
      l1_batch_state_root := fun n => if n = 5 then some 1 else none }
    client :=
    { sealed_miniblock_number := .ok 1
      sealed_l1_batch_number := .ok 5
      miniblock_hash := fun _ => .ok (some 1)
      l1_batch_root_hash := fun _ => .ok (some 2) } }

/-- A stop signal that is unset at polls 0, 1 and 2 and set from poll 3 on:
it becomes set during the between-round sleep separating poll 2 from poll 3. -/
def stopAfterThree : Nat → Bool := fun i => decide (3 ≤ i)

/-- A stop signal that is always set. -/
def stopAlways : Nat → Bool := fun _ => true

/-- A stop signal that is never set. -/
def stopNever : Nat → Bool := fun _ => false

/-- C5: `is_transient` returns `true` exactly on RPC transport errors, RPC
request timeouts, and `NoRemoteL1Batch`; every other error — in particular
`EarliestHashMismatch`, `EarliestL1BatchTruncated`, `ReorgDetected`,
`Storage` and the remaining RPC errors — is not transient. -/
theorem C5_is_transient_iff (e : Error) :
    e.is_transient = true ↔
      e = .Rpc .Transport ∨ e = .Rpc .RequestTimeout ∨ e = .NoRemoteL1Batch := by
  cases e with
  | Rpc r => cases r <;> simp [Error.is_transient]
  | EarliestHashMismatch n => simp [Error.is_transient]
  | EarliestL1BatchTruncated n => simp [Error.is_transient]
  | ReorgDetected n => simp [Error.is_transient]
  | Storage => simp [Error.is_transient]
  | NoRemoteL1Batch => simp [Error.is_transient]

/-- C4: remote absence is handled asymmetrically: with the local hashes
present, an absent remote batch root hash makes `root_hashes_match` fail with
`NoRemoteL1Batch`, while an absent remote block hash makes
`miniblock_hashes_match` return `true`. -/
theorem C4_remote_absence_asymmetry (st : DetectorState) (bn mn lb lm : Nat)
    (hlb : st.storage.l1_batch_state_root bn = some lb)
    (hrb : st.client.l1_batch_root_hash bn = .ok none)
    (hlm : st.storage.miniblock_header_hash mn = some lm)
    (hrm : st.client.miniblock_hash mn = .ok none) :
    (root_hashes_match st bn).1 = .error .NoRemoteL1Batch ∧
    (miniblock_hashes_match st mn).1 = .ok true := by
  constructor
  · simp [root_hashes_match, hlb, hrb]
  · simp [miniblock_hashes_match, hlm, hrm]

/-- Witness for C4 at the concrete state `stAbsent`. -/
theorem C4_remote_absence_asymmetry_witness :
    (root_hashes_match stAbsent 3).1 = .error .NoRemoteL1Batch ∧
    (miniblock_hashes_match stAbsent 4).1 = .ok true :=
  C4_remote_absence_asymmetry stAbsent 3 4 7 8 rfl rfl rfl rfl

/-- C9: when either local tip component is absent (no last L1 batch with
metadata, or no sealed miniblock), `check_consistency` returns success and
emits no event. -/
theorem C9_bootstrap_success (st : DetectorState)
    (h : st.storage.last_l1_batch_number_with_metadata = none ∨
        st.storage.sealed_miniblock_number = none) :
    (check_consistency st).1 = .ok () ∧
      ∀ e, Action.emit e ∉ (check_consistency st).2 := by
  rcases h with h | h
  · simp [check_consistency, h]
  · cases hl : st.storage.last_l1_batch_number_with_metadata with
    | none => simp [check_consistency, hl]
    | some lb => simp [check_consistency, hl, h]

/-- Witness for C9 at the concrete state `stEmpty`. -/
theorem C9_bootstrap_success_witness :
    (check_consistency stEmpty).1 = .ok () ∧
      ∀ e, Action.emit e ∉ (check_consistency stEmpty).2 :=
  C9_bootstrap_success stEmpty (Or.inl rfl)

/-- C10: when the stop signal is already set at the first poll, `run` emits
`initialized` and `start_shutting_down` exactly once each and returns `Ok`,
with no other action: no consistency check, no store query and no RPC. -/
theorem C10_stop_at_entry (st : DetectorState) (stop : Nat → Bool)
    (o inner_fuel : Nat) (h : stop 0 = true) :
    run st stop (o + 1) inner_fuel =
      (.ok (), [.emit .initialized, .emit .start_shutting_down]) := by
  simp [run, run_loop, h]

/-- Witness for C10 at the concrete state `stHealthy` with an always-set
stop signal. -/
theorem C10_stop_at_entry_witness :
    run stHealthy stopAlways 1 5 =
      (.ok (), [.emit .initialized, .emit .start_shutting_down]) :=
  C10_stop_at_entry stHealthy stopAlways 0 5 rfl

/-- C6: after the warmup wait returns the earliest local batch with metadata,
`run_inner` checks root hashes there: a mismatch terminates with
`EarliestHashMismatch` carrying that batch, a `NoRemoteL1Batch` error with
`EarliestL1BatchTruncated` carrying that batch, and any other error
propagates unchanged. -/
theorem C6_earliest_check (st : DetectorState) (stop : Nat → Bool)
    (i fuel n : Nat) (hstop : stop i = false)
    (hearliest : st.storage.earliest_l1_batch_number_with_metadata = some n) :
    (∀ tr, root_hashes_match st n = (.ok false, tr) →
        run_inner st stop i fuel = (.error (.EarliestHashMismatch n), tr, i + 1)) ∧
    (∀ tr, root_hashes_match st n = (.error .NoRemoteL1Batch, tr) →
        run_inner st stop i fuel =
          (.error (.EarliestL1BatchTruncated n), tr, i + 1)) ∧
    (∀ e tr, e ≠ Error.NoRemoteL1Batch →
        root_hashes_match st n = (.error e, tr) →
        run_inner st stop i fuel = (.error e, tr, i + 1)) := by
  refine ⟨fun tr htr => ?_, fun tr htr => ?_, fun e tr hne htr => ?_⟩
  · simp [run_inner, wait_for_l1_batch_with_metadata, hstop, hearliest, htr]
  · simp [run_inner, wait_for_l1_batch_with_metadata, hstop, hearliest, htr]
  · cases e with
    | NoRemoteL1Batch => exact absurd rfl hne
    | Rpc r =>
      simp [run_inner, wait_for_l1_batch_with_metadata, hstop, hearliest, htr]
    | EarliestHashMismatch m =>
      simp [run_inner, wait_for_l1_batch_with_metadata, hstop, hearliest, htr]
    | EarliestL1BatchTruncated m =>
      simp [run_inner, wait_for_l1_batch_with_metadata, hstop, hearliest, htr]
    | ReorgDetected m =>
      simp [run_inner, wait_for_l1_batch_with_metadata, hstop, hearliest, htr]
    | Storage =>
      simp [run_inner, wait_for_l1_batch_with_metadata, hstop, hearliest, htr]

/-- Witness for C6 at the concrete state `stEarliestMismatch`, whose earliest
batch 5 has local root 1 and remote root 2. -/
theorem C6_earliest_check_witness :
    run_inner stEarliestMismatch stopNever 0 0 =
      (.error (.EarliestHashMismatch 5),
        [.query_l1_batch_state_root 5, .rpc_l1_batch_root_hash 5], 1) :=
  (C6_earliest_check stEarliestMismatch stopNever 0 0 5 rfl rfl).1
    [.query_l1_batch_state_root 5, .rpc_l1_batch_root_hash 5] rfl

/-- C2: in every round where both comparisons complete and at least one
fails, `report_divergence` is emitted with `checked_l1_batch + 1` when the
batch root hashes match (only the block hashes mismatch) and with
`checked_l1_batch` when the batch root hashes mismatch, and this emission
comes right after the two comparisons, before localization begins. -/
theorem C2_divergence_offset (st : DetectorState)
    (lb lmb rb rmb : Nat) (rm bm : Bool) (tr1 tr2 : List Action)
    (h1 : st.storage.last_l1_batch_number_with_metadata = some lb)
    (h2 : st.storage.sealed_miniblock_number = some lmb)
    (h3 : st.client.sealed_l1_batch_number = .ok rb)
    (h4 : st.client.sealed_miniblock_number = .ok rmb)
    (h5 : root_hashes_match st (min lb rb) = (.ok rm, tr1))
    (h6 : miniblock_hashes_match st (min lmb rmb) = (.ok bm, tr2))
    (h7 : rm = false ∨ bm = false) :
    ∃ rest, (check_consistency st).2 =
      [Action.query_last_l1_batch, .query_sealed_miniblock,
        .rpc_sealed_l1_batch, .rpc_sealed_miniblock] ++ tr1 ++ tr2 ++
      Action.emit (.report_divergence (min lb rb + if rm then 1 else 0))
        :: rest := by
  have hb : (rm && bm) = false := by rcases h7 with h | h <;> simp [h]
  simp only [check_consistency, h1, h2, h3, h4, h5, h6, hb]
  cases hE : st.storage.earliest_l1_batch_number_with_metadata with
  | none => exact ⟨[.query_earliest_l1_batch], by simp⟩
  | some a =>
    rcases hD : detect_reorg st a (min lb rb + if rm then 1 else 0) with ⟨res, tr3⟩
    cases res with
    | error e => exact ⟨.query_earliest_l1_batch :: tr3, by simp [hD]⟩
    | ok k => exact ⟨.query_earliest_l1_batch :: tr3, by simp [hD]⟩

/-- Witness for C2 at the concrete state `stBlockOnly`: root hashes match at
batch 10, miniblock hashes mismatch at block 30, so divergence is reported at
batch 11. -/
theorem C2_divergence_offset_witness :
    ∃ rest, (check_consistency stBlockOnly).2 =
      [Action.query_last_l1_batch, .query_sealed_miniblock,
        .rpc_sealed_l1_batch, .rpc_sealed_miniblock,
        .query_l1_batch_state_root 10, .rpc_l1_batch_root_hash 10,
        .query_miniblock_header 30, .rpc_miniblock_hash 30] ++
      Action.emit (.report_divergence 11) :: rest :=
  C2_divergence_offset stBlockOnly 10 30 10 30 true false
    [.query_l1_batch_state_root 10, .rpc_l1_batch_root_hash 10]
    [.query_miniblock_header 30, .rpc_miniblock_hash 30]
    rfl rfl rfl rfl rfl rfl (Or.inr rfl)

/-- C3: when the local and remote histories agree hash-by-hash at every
height up to the minima of the two tip heights, `check_consistency` succeeds
and emits exactly one event: `update_correct_block` at those minima. -/
theorem C3_agreement_success (st : DetectorState) (lb lmb rb rmb : Nat)
    (h1 : st.storage.last_l1_batch_number_with_metadata = some lb)
    (h2 : st.storage.sealed_miniblock_number = some lmb)
    (h3 : st.client.sealed_l1_batch_number = .ok rb)
    (h4 : st.client.sealed_miniblock_number = .ok rmb)
    (hbatch : ∀ n, n ≤ min lb rb → ∃ h,
        st.storage.l1_batch_state_root n = some h ∧
        st.client.l1_batch_root_hash n = .ok (some h))
    (hblock : ∀ n, n ≤ min lmb rmb → ∃ h,
        st.storage.miniblock_header_hash n = some h ∧
        st.client.miniblock_hash n = .ok (some h)) :
    check_consistency st = (.ok (),
      [.query_last_l1_batch, .query_sealed_miniblock, .rpc_sealed_l1_batch,
        .rpc_sealed_miniblock, .query_l1_batch_state_root (min lb rb),
        .rpc_l1_batch_root_hash (min lb rb),
        .query_miniblock_header (min lmb rmb),
        .rpc_miniblock_hash (min lmb rmb),
        .emit (.update_correct_block (min lmb rmb) (min lb rb))]) := by
  obtain ⟨hb, hbs, hbc⟩ := hbatch (min lb rb) le_rfl
  obtain ⟨hm, hms, hmc⟩ := hblock (min lmb rmb) le_rfl
  have hroot : root_hashes_match st (min lb rb) =
      (.ok true, [.query_l1_batch_state_root (min lb rb),
        .rpc_l1_batch_root_hash (min lb rb)]) := by
    simp [root_hashes_match, hbs, hbc]
  have hmb : miniblock_hashes_match st (min lmb rmb) =
      (.ok true, [.query_miniblock_header (min lmb rmb),
        .rpc_miniblock_hash (min lmb rmb)]) := by
    simp [miniblock_hashes_match, hms, hmc]
  simp [check_consistency, h1, h2, h3, h4, hroot, hmb]

/-- Witness for C3 at the concrete state `stHealthy`, whose two sides agree
everywhere; the checked heights are `min 10 30 = 10` and `min 30 30 = 30`. -/
theorem C3_agreement_success_witness :
    check_consistency stHealthy = (.ok (),
      [.query_last_l1_batch, .query_sealed_miniblock, .rpc_sealed_l1_batch,
        .rpc_sealed_miniblock, .query_l1_batch_state_root 10,
        .rpc_l1_batch_root_hash 10, .query_miniblock_header 30,
        .rpc_miniblock_hash 30, .emit (.update_correct_block 30 10)]) :=
  C3_agreement_success stHealthy 10 30 30 30 rfl rfl rfl rfl
    (fun n hn => ⟨100 + n, by simp [stHealthy] at hn ⊢; omega, by
      simp [stHealthy] at hn ⊢; omega⟩)
    (fun n hn => ⟨1000 + n, by simp [stHealthy] at hn ⊢; omega, by
      simp [stHealthy] at hn ⊢; omega⟩)

/-- Unfolding lemma for `binary_search_with` in the recursive case. -/
theorem binary_search_with_step (f : Nat → Except Error Bool × List Action)
    (left right : Nat) (hc : left + 1 < right) :
    binary_search_with f left right =
      match f ((left + right) / 2) with
      | (.error e, tr) => (.error e, tr)
      | (.ok true, tr) =>
        let rest := binary_search_with f ((left + right) / 2) right
        (rest.1, tr ++ rest.2)
      | (.ok false, tr) =>
        let rest := binary_search_with f left ((left + right) / 2)
        (rest.1, tr ++ rest.2) := by
  rw [binary_search_with]
  simp [hc]

/-- Unfolding lemma for `binary_search_with` in the base case. -/
theorem binary_search_with_base (f : Nat → Except Error Bool × List Action)
    (left right : Nat) (hc : ¬ (left + 1 < right)) :
    binary_search_with f left right = (.ok left, []) := by
  rw [binary_search_with]
  simp [hc]

/-- Boundary property of `binary_search_with`: when the probe answers
`.ok (q n)` at every interior point, the predicate holds at `left` and fails
at `right`, the search succeeds with a `k` where `q` holds and fails at
`k + 1`. -/
theorem binary_search_with_spec (f : Nat → Except Error Bool × List Action)
    (q : Nat → Bool) :
    ∀ d left right, right - left = d → left < right →
      (∀ n, left < n → n < right → (f n).1 = .ok (q n)) →
      q left = true → q right = false →
      ∃ k, (binary_search_with f left right).1 = .ok k ∧ left ≤ k ∧ k < right ∧
        q k = true ∧ q (k + 1) = false := by
  intro d
  induction d using Nat.strong_induction_on with
  | _ d ih =>
    intro left right hd hlt hf hql hqr
    by_cases hc : left + 1 < right
    · have hm1 : left < (left + right) / 2 := by omega
      have hm2 : (left + right) / 2 < right := by omega
      rcases hfm : f ((left + right) / 2) with ⟨res, tr⟩
      have hres : res = .ok (q ((left + right) / 2)) := by
        have h := hf _ hm1 hm2
        rw [hfm] at h
        exact h
      subst hres
      rw [binary_search_with_step f left right hc, hfm]
      cases hqm : q ((left + right) / 2) with
      | true =>
        obtain ⟨k, hk1, hk2, hk3, hk4, hk5⟩ :=
          ih (right - (left + right) / 2) (by omega) _ right rfl hm2
            (fun n hn1 hn2 => hf n (by omega) hn2) hqm hqr
        exact ⟨k, by simpa using hk1, by omega, hk3, hk4, hk5⟩
      | false =>
        obtain ⟨k, hk1, hk2, hk3, hk4, hk5⟩ :=
          ih ((left + right) / 2 - left) (by omega) left _ rfl hm1
            (fun n hn1 hn2 => hf n hn1 (by omega)) hql hqm
        exact ⟨k, by simpa using hk1, hk2, by omega, hk4, hk5⟩
    · rw [binary_search_with_base f left right hc]
      have hr1 : right = left + 1 := by omega
      exact ⟨left, rfl, le_refl left, hlt, hql, by rw [← hr1]; exact hqr⟩

/-- Every action in the trace of `binary_search_with` comes from a probe at
an interior point of the interval. -/
theorem binary_search_with_probes (f : Nat → Except Error Bool × List Action) :
    ∀ d left right, right - left = d →
      ∀ a, a ∈ (binary_search_with f left right).2 →
        ∃ m, left < m ∧ m < right ∧ a ∈ (f m).2 := by
  intro d
  induction d using Nat.strong_induction_on with
  | _ d ih =>
    intro left right hd a ha
    by_cases hc : left + 1 < right
    · have hm1 : left < (left + right) / 2 := by omega
      have hm2 : (left + right) / 2 < right := by omega
      rw [binary_search_with_step f left right hc] at ha
      rcases hfm : f ((left + right) / 2) with ⟨res, tr⟩
      rw [hfm] at ha
      cases res with
      | error e =>
        simp at ha
        exact ⟨(left + right) / 2, hm1, hm2, by rw [hfm]; simpa using ha⟩
      | ok b =>
        cases b with
        | true =>
          simp at ha
          rcases ha with ha | ha
          · exact ⟨(left + right) / 2, hm1, hm2, by rw [hfm]; simpa using ha⟩
          · obtain ⟨m, hma, hmb, hmc⟩ :=
              ih (right - (left + right) / 2) (by omega) _ right rfl a ha
            exact ⟨m, by omega, hmb, hmc⟩
        | false =>
          simp at ha
          rcases ha with ha | ha
          · exact ⟨(left + right) / 2, hm1, hm2, by rw [hfm]; simpa using ha⟩
          · obtain ⟨m, hma, hmb, hmc⟩ :=
              ih ((left + right) / 2 - left) (by omega) left _ rfl a ha
            exact ⟨m, hma, by omega, hmc⟩
    · rw [binary_search_with_base f left right hc] at ha
      simp at ha

/-- The probe used by `detect_reorg` leaves the trace of `root_hashes_match`
unchanged; it only coerces a `NoRemoteL1Batch` result. -/
theorem reorg_probe_snd (st : DetectorState) (n : Nat) :
    (reorg_probe st n).2 = (root_hashes_match st n).2 := by
  rcases h : root_hashes_match st n with ⟨res, tr⟩
  cases res with
  | ok b => simp [reorg_probe, h]
  | error e => cases e <;> simp [reorg_probe, h]

/-- The probe used by `detect_reorg` answers `.ok q` whenever
`root_hashes_match` answers `.ok q` or fails with `NoRemoteL1Batch` and
`q = true`. -/
theorem reorg_probe_fst_ok (st : DetectorState) (n : Nat) (q : Bool)
    (h : (root_hashes_match st n).1 = .ok q ∨
        ((root_hashes_match st n).1 = .error .NoRemoteL1Batch ∧ q = true)) :
    (reorg_probe st n).1 = .ok q := by
  rcases hr : root_hashes_match st n with ⟨res, tr⟩
  rw [hr] at h
  rcases h with h | ⟨h, hq⟩
  · have hres : res = .ok q := h
    subst hres
    simp [reorg_probe, hr]
  · have hres : res = .error .NoRemoteL1Batch := h
    subst hres
    simp [reorg_probe, hr, hq]

/-- C1: with agreement at `lo`, disagreement at `hi`, and a probe outcome
that is a monotone predicate `q` over `[lo, hi]` — where a `NoRemoteL1Batch`
answer counts as a match — `detect_reorg` returns the greatest `k` in
`[lo, hi]` at which `q` holds: `q` holds at every height up to `k`, fails at
`k + 1`, and no greater height in the interval satisfies `q`. -/
theorem C1_detect_reorg_boundary (st : DetectorState) (q : Nat → Bool)
    (lo hi : Nat) (hlt : lo < hi)
    (hprobe : ∀ n, lo ≤ n → n ≤ hi →
        (root_hashes_match st n).1 = .ok (q n) ∨
        ((root_hashes_match st n).1 = .error .NoRemoteL1Batch ∧ q n = true))
    (hlo : q lo = true) (hhi : q hi = false)
    (hmono : ∀ a b, lo ≤ a → a ≤ b → b ≤ hi → q b = true → q a = true) :
    ∃ k, (detect_reorg st lo hi).1 = .ok k ∧ lo ≤ k ∧ k < hi ∧
      q k = true ∧ q (k + 1) = false ∧
      (∀ n, lo ≤ n → n ≤ k → q n = true) ∧
      (∀ n, lo ≤ n → n ≤ hi → q n = true → n ≤ k) := by
  obtain ⟨k, hk1, hk2, hk3, hk4, hk5⟩ :=
    binary_search_with_spec (reorg_probe st) q (hi - lo) lo hi rfl hlt
      (fun n h1 h2 =>
        reorg_probe_fst_ok st n (q n) (hprobe n (le_of_lt h1) (le_of_lt h2)))
      hlo hhi
  refine ⟨k, hk1, hk2, hk3, hk4, hk5, ?_, ?_⟩
  · intro n h1 h2
    exact hmono n k h1 h2 (by omega) hk4
  · intro n h1 h2 hq
    by_contra hn
    push_neg at hn
    have hcontra : q (k + 1) = true := hmono (k + 1) n (by omega) (by omega) h2 hq
    rw [hk5] at hcontra
    simp at hcontra

/-- Witness for C1 at the concrete state `stReorg`: roots agree on `[1, 7]`
and diverge from 8 on, so the localizer invoked on `[1, 10]` returns a `k`
with the boundary at 7. -/
theorem C1_detect_reorg_boundary_witness :
    ∃ k, (detect_reorg stReorg 1 10).1 = .ok k ∧ 1 ≤ k ∧ k < 10 ∧
      decide (k ≤ 7) = true ∧ decide (k + 1 ≤ 7) = false ∧
      (∀ n, 1 ≤ n → n ≤ k → decide (n ≤ 7) = true) ∧
      (∀ n, 1 ≤ n → n ≤ 10 → decide (n ≤ 7) = true → n ≤ k) :=
  C1_detect_reorg_boundary stReorg (fun n => decide (n ≤ 7)) 1 10 (by omega)
    (by intro n hn1 hn2; left; interval_cases n <;> rfl) rfl rfl
    (by intro a b h1 h2 h3 hb; simp only [decide_eq_true_eq] at hb ⊢; omega)

/-- Every action in the trace of `root_hashes_match st n` is a local or
remote root-hash query at exactly the height `n`. -/
theorem root_hashes_match_actions (st : DetectorState) (n : Nat) (a : Action)
    (h : a ∈ (root_hashes_match st n).2) :
    a = .query_l1_batch_state_root n ∨ a = .rpc_l1_batch_root_hash n := by
  cases hs : st.storage.l1_batch_state_root n with
  | none =>
    simp [root_hashes_match, hs] at h
    exact Or.inl h
  | some lh =>
    cases hc : st.client.l1_batch_root_hash n with
    | error e =>
      simp [root_hashes_match, hs, hc] at h
      exact h
    | ok o =>
      cases o with
      | none =>
        simp [root_hashes_match, hs, hc] at h
        exact h
      | some rh =>
        simp [root_hashes_match, hs, hc] at h
        exact h

/-- Every action in the trace of `miniblock_hashes_match st n` is a local or
remote block-hash query at exactly the height `n`. -/
theorem miniblock_hashes_match_actions (st : DetectorState) (n : Nat)
    (a : Action) (h : a ∈ (miniblock_hashes_match st n).2) :
    a = .query_miniblock_header n ∨ a = .rpc_miniblock_hash n := by
  cases hs : st.storage.miniblock_header_hash n with
  | none =>
    simp [miniblock_hashes_match, hs] at h
    exact Or.inl h
  | some lh =>
    cases hc : st.client.miniblock_hash n with
    | error e =>
      simp [miniblock_hashes_match, hs, hc] at h
      exact h
    | ok o =>
      cases o with
      | none =>
        simp [miniblock_hashes_match, hs, hc] at h
        exact h
      | some rh =>
        simp [miniblock_hashes_match, hs, hc] at h
        exact h

/-- Every action in the trace of `detect_reorg` is a root-hash query at a
strictly interior batch height of the search interval. -/
theorem detect_reorg_actions (st : DetectorState) (lo hi : Nat) (a : Action)
    (h : a ∈ (detect_reorg st lo hi).2) :
    ∃ m, lo < m ∧ m < hi ∧
      (a = .query_l1_batch_state_root m ∨ a = .rpc_l1_batch_root_hash m) := by
  obtain ⟨m, h1, h2, h3⟩ :=
    binary_search_with_probes (reorg_probe st) (hi - lo) lo hi rfl a h
  rw [reorg_probe_snd] at h3
  exact ⟨m, h1, h2, root_hashes_match_actions st m a h3⟩

/-- Classification of the actions of one `check_consistency` round: a fixed
store or tip query, a comparison query at the checked (minimum) height, an
event emission, or a localizer root-hash query at a height at most the
checked batch height. -/
theorem check_consistency_actions (st : DetectorState) (lb lmb rb rmb : Nat)
    (h1 : st.storage.last_l1_batch_number_with_metadata = some lb)
    (h2 : st.storage.sealed_miniblock_number = some lmb)
    (h3 : st.client.sealed_l1_batch_number = .ok rb)
    (h4 : st.client.sealed_miniblock_number = .ok rmb) :
    ∀ a, a ∈ (check_consistency st).2 →
      a ∈ [Action.query_last_l1_batch, Action.query_sealed_miniblock,
        Action.rpc_sealed_l1_batch, Action.rpc_sealed_miniblock,
        Action.query_earliest_l1_batch] ∨
      a ∈ (root_hashes_match st (min lb rb)).2 ∨
      a ∈ (miniblock_hashes_match st (min lmb rmb)).2 ∨
      (∃ e, a = Action.emit e) ∨
      (∃ m, m ≤ min lb rb ∧
        (a = Action.query_l1_batch_state_root m ∨
          a = Action.rpc_l1_batch_root_hash m)) := by
  intro a ha
  simp only [check_consistency, h1, h2, h3, h4] at ha
  rcases hr : root_hashes_match st (min lb rb) with ⟨r1, tr1⟩
  rw [hr] at ha
  cases r1 with
  | error e =>
    simp at ha
    rcases ha with ha | ha | ha | ha | ha
    · left; simp [ha]
    · left; simp [ha]
    · left; simp [ha]
    · left; simp [ha]
    · right; left; simpa using ha
  | ok rm =>
    rcases hm : miniblock_hashes_match st (min lmb rmb) with ⟨r2, tr2⟩
    rw [hm] at ha
    cases r2 with
    | error e =>
      simp at ha
      rcases ha with ha | ha | ha | ha | ha | ha
      · left; simp [ha]
      · left; simp [ha]
      · left; simp [ha]
      · left; simp [ha]
      · right; left; simpa using ha
      · right; right; left; simpa using ha
    | ok bm =>
      cases rm with
      | true =>
        cases bm with
        | true =>
          simp at ha
          rcases ha with ha | ha | ha | ha | ha | ha | ha
          · left; simp [ha]
          · left; simp [ha]
          · left; simp [ha]
          · left; simp [ha]
          · right; left; simpa using ha
          · right; right; left; simpa using ha
          · right; right; right; left; exact ⟨_, ha⟩
        | false =>
          simp at ha
          cases hE : st.storage.earliest_l1_batch_number_with_metadata with
          | none =>
            rw [hE] at ha
            simp at ha
            rcases ha with ha | ha | ha | ha | ha | ha | ha | ha
            · left; simp [ha]
            · left; simp [ha]
            · left; simp [ha]
            · left; simp [ha]
            · right; left; simpa using ha
            · right; right; left; simpa using ha
            · right; right; right; left; exact ⟨_, ha⟩
            · left; simp [ha]
          | some ae =>
            simp only [hE] at ha
            rcases hD : detect_reorg st ae (min lb rb + 1) with ⟨r3, tr3⟩
            rw [hD] at ha
            have htr3 : ∀ x, x ∈ tr3 →
                (∃ m, m ≤ min lb rb ∧
                  (x = Action.query_l1_batch_state_root m ∨
                    x = Action.rpc_l1_batch_root_hash m)) := by
              intro x hx
              have hx2 : x ∈ (detect_reorg st ae (min lb rb + 1)).2 := by
                rw [hD]; simpa using hx
              obtain ⟨m, hma, hmb, hmc⟩ := detect_reorg_actions st _ _ x hx2
              exact ⟨m, by omega, hmc⟩
            cases r3 with
            | error e3 =>
              simp at ha
              rcases ha with ha | ha | ha | ha | ha | ha | ha | ha | ha
              · left; simp [ha]
              · left; simp [ha]
              · left; simp [ha]
              · left; simp [ha]
              · right; left; simpa using ha
              · right; right; left; simpa using ha
              · right; right; right; left; exact ⟨_, ha⟩
              · left; simp [ha]
              · right; right; right; right; exact htr3 a ha
            | ok k3 =>
              simp at ha
              rcases ha with ha | ha | ha | ha | ha | ha | ha | ha | ha
              · left; simp [ha]
              · left; simp [ha]
              · left; simp [ha]
              · left; simp [ha]
              · right; left; simpa using ha
              · right; right; left; simpa using ha
              · right; right; right; left; exact ⟨_, ha⟩
              · left; simp [ha]
              · right; right; right; right; exact htr3 a ha
      | false =>
        simp at ha
        cases hE : st.storage.earliest_l1_batch_number_with_metadata with
        | none =>
          rw [hE] at ha
          simp at ha
          rcases ha with ha | ha | ha | ha | ha | ha | ha | ha
          · left; simp [ha]
          · left; simp [ha]
          · left; simp [ha]
          · left; simp [ha]
          · right; left; simpa using ha
          · right; right; left; simpa using ha
          · right; right; right; left; exact ⟨_, ha⟩
          · left; simp [ha]
        | some ae =>
          simp only [hE] at ha
          rcases hD : detect_reorg st ae (min lb rb) with ⟨r3, tr3⟩
          rw [hD] at ha
          have htr3 : ∀ x, x ∈ tr3 →
              (∃ m, m ≤ min lb rb ∧
                (x = Action.query_l1_batch_state_root m ∨
                  x = Action.rpc_l1_batch_root_hash m)) := by
            intro x hx
            have hx2 : x ∈ (detect_reorg st ae (min lb rb)).2 := by
              rw [hD]; simpa using hx
            obtain ⟨m, hma, hmb, hmc⟩ := detect_reorg_actions st _ _ x hx2
            exact ⟨m, by omega, hmc⟩
          cases r3 with
          | error e3 =>
            simp at ha
            rcases ha with ha | ha | ha | ha | ha | ha | ha | ha | ha
            · left; simp [ha]
            · left; simp [ha]
            · left; simp [ha]
            · left; simp [ha]
            · right; left; simpa using ha
            · right; right; left; simpa using ha
            · right; right; right; left; exact ⟨_, ha⟩
            · left; simp [ha]
            · right; right; right; right; exact htr3 a ha
          | ok k3 =>
            simp at ha
            rcases ha with ha | ha | ha | ha | ha | ha | ha | ha | ha
            · left; simp [ha]
            · left; simp [ha]
            · left; simp [ha]
            · left; simp [ha]
            · right; left; simpa using ha
            · right; right; left; simpa using ha
            · right; right; right; left; exact ⟨_, ha⟩
            · left; simp [ha]
            · right; right; right; right; exact htr3 a ha

/-- C7: under observed tips, every remote batch root-hash query of a round —
the comparison query and every localizer probe — is at a height at most the
checked height `min lb rb`, hence never beyond the remote sealed batch tip
`rb`; and every remote block-hash query is exactly the comparison at
`min lmb rmb`, hence never beyond the remote sealed block tip `rmb`. -/
theorem C7_query_bounds (st : DetectorState) (lb lmb rb rmb : Nat)
    (h1 : st.storage.last_l1_batch_number_with_metadata = some lb)
    (h2 : st.storage.sealed_miniblock_number = some lmb)
    (h3 : st.client.sealed_l1_batch_number = .ok rb)
    (h4 : st.client.sealed_miniblock_number = .ok rmb) :
    (∀ n, Action.rpc_l1_batch_root_hash n ∈ (check_consistency st).2 →
        n ≤ min lb rb ∧ n ≤ rb) ∧
    (∀ n, Action.rpc_miniblock_hash n ∈ (check_consistency st).2 →
        n = min lmb rmb ∧ n ≤ rmb) := by
  constructor
  · intro n hn
    rcases check_consistency_actions st lb lmb rb rmb h1 h2 h3 h4 _ hn
      with h | h | h | h | h
    · simp at h
    · rcases root_hashes_match_actions st _ _ h with h' | h'
      · simp at h'
      · have hnm : n = min lb rb := by simpa using h'
        constructor
        · omega
        · have := min_le_right lb rb
          omega
    · rcases miniblock_hashes_match_actions st _ _ h with h' | h'
      · simp at h'
      · simp at h'
    · rcases h with ⟨e, he⟩
      simp at he
    · rcases h with ⟨m, hm, h' | h'⟩
      · simp at h'
      · have hnm : n = m := by simpa using h'
        constructor
        · omega
        · have := min_le_right lb rb
          omega
  · intro n hn
    rcases check_consistency_actions st lb lmb rb rmb h1 h2 h3 h4 _ hn
      with h | h | h | h | h
    · simp at h
    · rcases root_hashes_match_actions st _ _ h with h' | h'
      · simp at h'
      · simp at h'
    · rcases miniblock_hashes_match_actions st _ _ h with h' | h'
      · simp at h'
      · have hnm : n = min lmb rmb := by simpa using h'
        constructor
        · exact hnm
        · have := min_le_right lmb rmb
          omega
    · rcases h with ⟨e, he⟩
      simp at he
    · rcases h with ⟨m, hm, h' | h'⟩
      · simp at h'
      · simp at h'

/-- Witness for C7 at the concrete state `stReorg`: every remote batch query
is at a height at most `min 10 10` and every remote block query is exactly at
`min 30 30`. -/
theorem C7_query_bounds_witness :
    (∀ n, Action.rpc_l1_batch_root_hash n ∈ (check_consistency stReorg).2 →
        n ≤ min 10 10 ∧ n ≤ 10) ∧
    (∀ n, Action.rpc_miniblock_hash n ∈ (check_consistency stReorg).2 →
        n = min 30 30 ∧ n ≤ 30) :=
  C7_query_bounds stReorg 10 30 10 30 rfl rfl rfl rfl

/-- Counterexample to C8 as stated. The stop signal `stopAfterThree` is unset
at polls 0 (outer loop), 1 (warmup wait) and 2 (steady loop) and set from
poll 3 on — that is, it becomes set during the between-round sleep that
separates poll 2 from poll 3. C8 claims that sleep then wakes early rather
than waiting out the full `sleep_interval`; but the code's sleeps are plain
`tokio::time::sleep(self.sleep_interval)` calls, not selected against the
stop receiver, so the trace still contains the completed full-interval sleep
(`sleep_full`) after the signal is set, and shutdown happens only at the next
loop-boundary poll. -/
theorem C8_sleep_counterexample :
    run stHealthy stopAfterThree 3 3 =
      (.ok (), [.emit .initialized,
        .query_l1_batch_state_root 1, .rpc_l1_batch_root_hash 1,
        .query_last_l1_batch, .query_sealed_miniblock, .rpc_sealed_l1_batch,
        .rpc_sealed_miniblock, .query_l1_batch_state_root 10,
        .rpc_l1_batch_root_hash 10, .query_miniblock_header 30,
        .rpc_miniblock_hash 30, .emit (.update_correct_block 30 10),
        .sleep_full, .emit .start_shutting_down]) := by
  rfl

/-- C8 amended: the run loop's sleeps are fixed full-interval sleeps that the
stop signal does not interrupt; the signal is polled at loop boundaries after
each sleep completes. A signal set during a between-round sleep takes effect
only once that sleep has run in full (first conjunct: the steady loop's trace
ends with the completed `sleep_full`), after which the loop exits cleanly
with `Ok` and the shutdown event (second conjunct). -/
theorem C8_stop_polled_after_full_sleep (st : DetectorState)
    (stop : Nat → Bool) (i o f : Nat) :
    (stop i = false → stop (i + 1) = true →
      (check_consistency st).1 = .ok () →
      run_inner_steady st stop i (f + 2) =
        (.ok (), (check_consistency st).2 ++ [.sleep_full], i + 2)) ∧
    (stop i = true →
      run_loop st stop i (o + 1) f = (.ok (), [.emit .start_shutting_down])) := by
  constructor
  · intro hnow hnext hok
    rcases hc : check_consistency st with ⟨res, tr⟩
    have hres : res = .ok () := by
      rw [hc] at hok
      exact hok
    subst hres
    simp [run_inner_steady, hnow, hnext, hc]
  · intro h
    simp [run_loop, h]

/-- Witness for the amended C8 at the concrete state `stHealthy` with the
stop signal `stopAfterThree`: the steady round starting at poll 2 completes
its full sleep although the signal is set from poll 3, and the outer loop
polling the set signal at index 3 shuts down cleanly. -/
theorem C8_stop_polled_after_full_sleep_witness :
    run_inner_steady stHealthy stopAfterThree 2 3 =
      (.ok (), (check_consistency stHealthy).2 ++ [.sleep_full], 4) ∧
    run_loop stHealthy stopAfterThree 3 1 3 =
      (.ok (), [.emit .start_shutting_down]) :=
  ⟨(C8_stop_polled_after_full_sleep stHealthy stopAfterThree 2 0 1).1
      rfl rfl rfl,
    (C8_stop_polled_after_full_sleep stHealthy stopAfterThree 3 0 3).2 rfl⟩

end Reorg
